import Mathlib

/-!
# Verification of the movie recommender core

A shallow embedding of the query operations of `movie_recommender.py`:
`top_movies`, `top_movies_in_genre`, `top_genres`, `user_top_genre` and
`recommend_movies`.

Modelling decisions:
* The Python dicts `MoviesDict` (movie name -> (movie id, genre)) and
  `RatingsDict` (movie name -> list of (user id, rating)) are modelled as
  association lists in insertion order, which is exactly the iteration
  order of a Python dict.  Where a property needs the dict invariant that
  keys are unique, the theorem takes a `Nodup` hypothesis on the keys.
* Ratings (Python floats) are modelled as rationals; every arithmetic
  operation performed by the program (sum, division by a count) is exact.
* User ids can be stored as strings or integers; the program only ever
  compares them through Python `str()`, which `UserId.toStr` models.
* Python `sorted(items, key=lambda x: (-x[1], x[0]))` sorts by a total,
  antisymmetric order on (name, score) pairs, so its output is the unique
  sorted permutation; we realise it with `List.insertionSort` over the
  relation `keyRel`.
* Python slicing `lst[:n]` is modelled by `pyTake`, including its
  behaviour for negative `n` (drop the last `|n|` elements).
-/

/-- A user identifier as stored in a ratings entry: the loader produces
strings, but callers may also build dicts with integer ids; the program
compares ids via `str()`. -/
inductive UserId where
  | str (s : String)
  | int (n : Int)
deriving DecidableEq, Repr

/-- Python `str()` applied to a user id. -/
def UserId.toStr : UserId → String
  | .str s => s
  | .int n => toString n

/-- A movie identifier: `load_movies` converts it to `int` when possible
and otherwise keeps the string. -/
inductive MovieId where
  | int (n : Int)
  | str (s : String)
deriving DecidableEq, Repr

/-- `movies`: movie name -> (movie id, genre), in insertion order. -/
abbrev MoviesDict := List (String × (MovieId × String))

/-- `ratings`: movie name -> list of (user id, rating), in insertion order. -/
abbrev RatingsDict := List (String × List (UserId × ℚ))

/-- Python `ratings.get(m, [])`. -/
def dictGet (ratings : RatingsDict) (m : String) : List (UserId × ℚ) :=
  match ratings.find? (fun p => p.1 == m) with
  | some p => p.2
  | none => []

/-- Python `movies.get(m)`. -/
def catGet (movies : MoviesDict) (m : String) : Option (MovieId × String) :=
  (movies.find? (fun p => p.1 == m)).map Prod.snd

/-- `sum(vals) / len(vals)` (only ever applied to nonempty lists by the
program; on `[]` it returns `0/0 = 0` in `ℚ`). -/
def avgList (vals : List ℚ) : ℚ := vals.sum / (vals.length : ℚ)

/-- The average the program computes for one movie entry: `None` when the
movie has no ratings (the `if nums:` guard), otherwise the mean.  With the
typed rating lists every item passes the `isinstance`/`float` checks of the
source, so `nums` is just the list of rating values. -/
def movieAvg (vals : List (UserId × ℚ)) : Option ℚ :=
  if vals.isEmpty then none else some (avgList (vals.map Prod.snd))

/-- The sort order of `sorted(items, key=lambda x: (-x[1], x[0]))`:
higher score first, ties broken by name ascending. -/
def keyRel (x y : String × ℚ) : Prop :=
  y.2 < x.2 ∨ (x.2 = y.2 ∧ x.1 ≤ y.1)

instance keyRel.instDecidable : DecidableRel keyRel := fun _ _ =>
  inferInstanceAs (Decidable (_ ∨ _))

/-- The ranking sort of the program.  `keyRel` is a total antisymmetric
order, so any sorted permutation equals what the Python `sorted` returns. -/
def rankSort (l : List (String × ℚ)) : List (String × ℚ) :=
  List.insertionSort keyRel l

/-- Python slicing `lst[:n]`: first `n` elements for `n ≥ 0`, and all but
the last `|n|` elements for `n < 0`. -/
def pyTake {α : Type} (n : Int) (l : List α) : List α :=
  if 0 ≤ n then l.take n.toNat else l.take (l.length - (-n).toNat)

/-- The `averages` dict of `top_movies`, as a list in insertion order:
one entry per rated movie entry. -/
def averagesList (ratings : RatingsDict) : List (String × ℚ) :=
  ratings.filterMap (fun p => (movieAvg p.2).map (fun a => (p.1, a)))

/-- The `sorted_movies` list of `top_movies`. -/
def rankedMovies (ratings : RatingsDict) : List (String × ℚ) :=
  rankSort (averagesList ratings)

/-- `top_movies(n, ratings)`. -/
def top_movies (n : Int) (ratings : RatingsDict) : List String :=
  (pyTake n (rankedMovies ratings)).map Prod.fst

/-- The `genre_movies` dict of `top_movies_in_genre`, as a list in catalog
iteration order: rated movies of the genre paired with their average. -/
def genreMoviesList (genre : String) (movies : MoviesDict) (ratings : RatingsDict) :
    List (String × ℚ) :=
  movies.filterMap (fun p =>
    if p.2.2 = genre then (movieAvg (dictGet ratings p.1)).map (fun a => (p.1, a))
    else none)

/-- The `sorted_movies` list of `top_movies_in_genre`. -/
def rankedGenreMovies (genre : String) (movies : MoviesDict) (ratings : RatingsDict) :
    List (String × ℚ) :=
  rankSort (genreMoviesList genre movies ratings)

/-- `top_movies_in_genre(n, genre, movies, ratings)`. -/
def top_movies_in_genre (n : Int) (genre : String) (movies : MoviesDict)
    (ratings : RatingsDict) : List String :=
  (pyTake n (rankedGenreMovies genre movies ratings)).map Prod.fst

/-- One step of maintaining the `genre_avgs`/`genre_counts` dicts of
`top_genres`: `genre_avgs[g] = genre_avgs.get(g, 0.0) + avg` together with
`genre_counts[g] = genre_counts.get(g, 0) + 1`, preserving dict key order
(update in place, new key appended at the end). -/
def bump (l : List (String × ℚ × ℕ)) (g : String) (a : ℚ) : List (String × ℚ × ℕ) :=
  match l with
  | [] => [(g, a, 1)]
  | q :: t => if q.1 = g then (q.1, q.2.1 + a, q.2.2 + 1) :: t else q :: bump t g a

/-- The accumulated `(genre_avgs, genre_counts)` of `top_genres` after the
loop over the catalog, as one association list genre -> (sum of movie
averages, number of rated movies). -/
def genreAgg (movies : MoviesDict) (ratings : RatingsDict) : List (String × ℚ × ℕ) :=
  movies.foldl (fun acc p =>
    match movieAvg (dictGet ratings p.1) with
    | none => acc
    | some a => bump acc p.2.2 a) []

/-- The `genre_mean` dict of `top_genres`. -/
def genreMeans (movies : MoviesDict) (ratings : RatingsDict) : List (String × ℚ) :=
  (genreAgg movies ratings).map (fun t => (t.1, t.2.1 / (t.2.2 : ℚ)))

/-- The `sorted_genres` list of `top_genres`. -/
def rankedGenres (movies : MoviesDict) (ratings : RatingsDict) : List (String × ℚ) :=
  rankSort (genreMeans movies ratings)

/-- `top_genres(n, movies, ratings)`. -/
def top_genres (n : Int) (movies : MoviesDict) (ratings : RatingsDict) : List String :=
  (pyTake n (rankedGenres movies ratings)).map Prod.fst

/-- `genre_ratings.setdefault(g, []).append(v)`: append `v` to the entry
of `g`, creating the entry at the end of the dict if absent. -/
def addAt (l : List (String × List ℚ)) (g : String) (v : ℚ) : List (String × List ℚ) :=
  match l with
  | [] => [(g, [v])]
  | q :: t => if q.1 = g then (q.1, q.2 ++ [v]) :: t else q :: addAt t g v

/-- The genre an item contributes to in the `user_top_genre` loop: the
item must belong to the queried user (comparison through `str()`) and its
movie must be cataloged; otherwise the loop "continue"s. -/
def contribOf (uid : UserId) (movies : MoviesDict) (mname : String)
    (item : UserId × ℚ) : Option String :=
  if item.1.toStr = uid.toStr then
    match catGet movies mname with
    | some info => some info.2
    | none => none
  else none

/-- The body of the `user_top_genre` loop for one rating item:
`genre_ratings.setdefault(genre, []).append(val)` when the item
contributes, no change otherwise. -/
def ratingStep (uid : UserId) (movies : MoviesDict) (mname : String)
    (acc2 : List (String × List ℚ)) (item : UserId × ℚ) : List (String × List ℚ) :=
  match contribOf uid movies mname item with
  | some g => addAt acc2 g item.2
  | none => acc2

/-- The `genre_ratings` dict of `user_top_genre` after the loop: for each
genre (in first-contribution order) the list of ratings by the user on
cataloged movies of that genre. -/
def genreRatingsOf (uid : UserId) (movies : MoviesDict) (ratings : RatingsDict) :
    List (String × List ℚ) :=
  ratings.foldl (fun acc p => p.2.foldl (ratingStep uid movies p.1) acc) []

/-- One step of the best-genre loop of `user_top_genre`: keep the running
best unless the average of this genre is strictly greater. -/
def bestStep (best : String × ℚ) (p : String × List ℚ) : String × ℚ :=
  if p.2.isEmpty then best
  else if avgList p.2 > best.2 then (p.1, avgList p.2) else best

/-- `user_top_genre(user_id, movies, ratings)`: the initial best pair is
the empty string with score -1. -/
def user_top_genre (uid : UserId) (movies : MoviesDict) (ratings : RatingsDict) : String :=
  ((genreRatingsOf uid movies ratings).foldl bestStep ("", -1)).1

/-- Membership of movie `m` in the `rated` set built by
`recommend_movies`: some ratings entry for `m` has an item whose user id
stringifies to the same string as the query user id. -/
def userRated (uid : UserId) (ratings : RatingsDict) (m : String) : Bool :=
  ratings.any (fun p => p.1 == m && p.2.any (fun item => item.1.toStr == uid.toStr))

/-- `recommend_movies(user_id, movies, ratings)`. -/
def recommend_movies (uid : UserId) (movies : MoviesDict) (ratings : RatingsDict) :
    List String :=
  let fav := user_top_genre uid movies ratings
  if fav = "" then []
  else ((top_movies_in_genre 50 fav movies ratings).filter
    (fun m => !userRated uid ratings m)).take 3

/-- `genreAverage` as the specification words it: the mean, over the
rated movies of the genre, of the own average rating of each movie; absent when the
genre has no rated movie. -/
def genreAverageSpec (genre : String) (movies : MoviesDict) (ratings : RatingsDict) :
    Option ℚ :=
  let avgs := movies.filterMap (fun p =>
    if p.2.2 = genre then movieAvg (dictGet ratings p.1) else none)
  if avgs.isEmpty then none else some (avgList avgs)

/-- The catalog of the worked example in the specification, section 8. -/
def exMovies : MoviesDict :=
  [("a", (.int 1, "drama")), ("b", (.int 2, "drama"))]

/-- The rating store of the worked example in the specification, section 8. -/
def exRatings : RatingsDict :=
  [("a", [(.str "u1", 5)]), ("b", [(.str "u1", 1), (.str "u2", 1)])]

section SanityExamples

example : top_movies 2 exRatings = ["a", "b"] := by
  norm_num [top_movies, rankedMovies, rankSort, averagesList, movieAvg, avgList, pyTake,
    List.insertionSort, List.orderedInsert, keyRel, dictGet, exRatings,
    String.le_iff_toList_le, String.lt_iff_toList_lt]

example : genreAverageSpec "drama" exMovies exRatings = some 3 := by
  simp [genreAverageSpec, movieAvg, avgList, dictGet, List.find?, exMovies, exRatings]
  all_goals norm_num

example : genreMeans exMovies exRatings = [("drama", 3)] := by
  simp [genreMeans, genreAgg, bump, movieAvg, avgList, dictGet, List.find?,
    exMovies, exRatings]
  all_goals norm_num

example : user_top_genre (.str "u1") exMovies exRatings = "drama" := by
  simp [user_top_genre, genreRatingsOf, ratingStep, contribOf, bestStep, addAt, avgList, catGet,
    List.find?, UserId.toStr, exMovies, exRatings]
  all_goals norm_num

example : recommend_movies (.str "u1") exMovies exRatings = [] := by
  simp [recommend_movies, user_top_genre, genreRatingsOf, ratingStep, contribOf, bestStep, addAt,
    avgList, catGet, List.find?, UserId.toStr, exMovies, exRatings, top_movies_in_genre,
    rankedGenreMovies, rankSort, genreMoviesList, movieAvg, dictGet, pyTake,
    List.insertionSort, List.orderedInsert, keyRel, userRated,
    String.le_iff_toList_le, String.lt_iff_toList_lt]
  all_goals norm_num
  all_goals simp [List.insertionSort, List.orderedInsert, keyRel, userRated,
    UserId.toStr, exRatings, String.le_iff_toList_le, String.lt_iff_toList_lt]

example : top_movies (-1) exRatings = ["a"] := by
  norm_num [top_movies, rankedMovies, rankSort, averagesList, movieAvg, avgList, pyTake,
    List.insertionSort, List.orderedInsert, keyRel, dictGet, exRatings,
    String.le_iff_toList_le, String.lt_iff_toList_lt]

end SanityExamples

/-! ### The ranking order -/

theorem keyRel_trans : ∀ x y z : String × ℚ, keyRel x y → keyRel y z → keyRel x z := by
  rintro x y z (h1 | ⟨h1, h1n⟩) (h2 | ⟨h2, h2n⟩)
  · exact Or.inl (lt_trans h2 h1)
  · exact Or.inl (h2 ▸ h1)
  · exact Or.inl (h1 ▸ h2)
  · exact Or.inr ⟨h1.trans h2, le_trans h1n h2n⟩

theorem keyRel_total : ∀ x y : String × ℚ, keyRel x y ∨ keyRel y x := by
  intro x y
  rcases lt_trichotomy x.2 y.2 with h | h | h
  · exact Or.inr (Or.inl h)
  · rcases le_total x.1 y.1 with hn | hn
    · exact Or.inl (Or.inr ⟨h, hn⟩)
    · exact Or.inr (Or.inr ⟨h.symm, hn⟩)
  · exact Or.inl (Or.inl h)

theorem keyRel_antisymm : ∀ x y : String × ℚ, keyRel x y → keyRel y x → x = y := by
  rintro x y (h1 | ⟨h1, h1n⟩) (h2 | ⟨h2, h2n⟩)
  · exact absurd h1 (lt_asymm h2)
  · exact absurd h1 (h2 ▸ lt_irrefl _)
  · exact absurd h2 (h1 ▸ lt_irrefl _)
  · exact Prod.ext (le_antisymm h1n h2n) h1

instance keyRel.instIsTrans : IsTrans (String × ℚ) keyRel := ⟨keyRel_trans⟩

instance keyRel.instIsTotal : IsTotal (String × ℚ) keyRel := ⟨keyRel_total⟩

instance keyRel.instIsAntisymm : IsAntisymm (String × ℚ) keyRel := ⟨keyRel_antisymm⟩

theorem rankSort_sorted (l : List (String × ℚ)) : List.Sorted keyRel (rankSort l) :=
  List.sorted_insertionSort keyRel l

theorem rankSort_perm (l : List (String × ℚ)) : (rankSort l).Perm l :=
  List.perm_insertionSort keyRel l

theorem rankSort_eq_of_perm {l1 l2 : List (String × ℚ)} (h : l1.Perm l2) :
    rankSort l1 = rankSort l2 :=
  List.eq_of_perm_of_sorted ((rankSort_perm l1).trans (h.trans (rankSort_perm l2).symm))
    (rankSort_sorted l1) (rankSort_sorted l2)

theorem pyTake_sublist {α : Type} (n : Int) (l : List α) : (pyTake n l).Sublist l := by
  unfold pyTake
  split <;> exact List.take_sublist _ l

theorem pyTake_nonneg {α : Type} {n : Int} (h : 0 ≤ n) (l : List α) :
    pyTake n l = l.take n.toNat := by
  simp [pyTake, h]

theorem pyTake_neg {α : Type} {n : Int} (h : n < 0) (l : List α) :
    pyTake n l = l.take (l.length - (-n).toNat) := by
  simp [pyTake, not_le_of_lt h]

/-! ### Claim C1: behaviour of the ranking operations for n ≤ 0 -/

theorem rankedMovies_sorted (ratings : RatingsDict) :
    List.Pairwise keyRel (rankedMovies ratings) :=
  rankSort_sorted (averagesList ratings)

theorem rankedGenreMovies_sorted (genre : String) (movies : MoviesDict)
    (ratings : RatingsDict) :
    List.Pairwise keyRel (rankedGenreMovies genre movies ratings) :=
  rankSort_sorted (genreMoviesList genre movies ratings)

theorem rankedGenres_sorted (movies : MoviesDict) (ratings : RatingsDict) :
    List.Pairwise keyRel (rankedGenres movies ratings) :=
  rankSort_sorted (genreMeans movies ratings)

/-- C1: the claim states that every `n ≤ 0` yields an empty result.  It is
false for negative `n`: the Python slice `sorted_movies[:n]` keeps all but the
last `|n|` entries, so `top_movies(-1)` on the two-movie example store
returns a nonempty list. -/
theorem C1_slice_counterexample : top_movies (-1) exRatings ≠ [] := by
  have h : top_movies (-1) exRatings = ["a"] := by
    norm_num [top_movies, rankedMovies, rankSort, averagesList, movieAvg, avgList, pyTake,
      List.insertionSort, List.orderedInsert, keyRel, dictGet, exRatings,
      String.le_iff_toList_le, String.lt_iff_toList_lt]
  simp [h]

/-- C1 (amended): for `n = 0` every ranking operation returns the empty
sequence; for `n < 0` each operation returns its ranked list with the last
`min(|n|, length)` entries removed (Python slice semantics), which is empty
exactly when the ranked list has at most `|n|` entries.  No operation
errors. -/
theorem C1_nonpositive_slice (n : Int) (g : String) (movies : MoviesDict)
    (ratings : RatingsDict) (hn : n < 0) :
    top_movies 0 ratings = [] ∧
    top_movies_in_genre 0 g movies ratings = [] ∧
    top_genres 0 movies ratings = [] ∧
    top_movies n ratings =
      ((rankedMovies ratings).take
        ((rankedMovies ratings).length - (-n).toNat)).map Prod.fst ∧
    top_movies_in_genre n g movies ratings =
      ((rankedGenreMovies g movies ratings).take
        ((rankedGenreMovies g movies ratings).length - (-n).toNat)).map Prod.fst ∧
    top_genres n movies ratings =
      ((rankedGenres movies ratings).take
        ((rankedGenres movies ratings).length - (-n).toNat)).map Prod.fst := by
  have hn2 : ¬ (0 ≤ n) := not_le_of_lt hn
  refine ⟨by simp [top_movies, pyTake], by simp [top_movies_in_genre, pyTake],
    by simp [top_genres, pyTake], ?_, ?_, ?_⟩ <;>
    simp [top_movies, top_movies_in_genre, top_genres, pyTake, hn2, List.map_take]

theorem C1_nonpositive_slice_witness :
    top_movies 0 exRatings = [] ∧
    top_movies (-1) exRatings =
      ((rankedMovies exRatings).take ((rankedMovies exRatings).length - 1)).map Prod.fst := by
  have h := C1_nonpositive_slice (-1) "drama" exMovies exRatings (by decide)
  exact ⟨h.1, by simpa using h.2.2.2.1⟩

/-! ### Claim C4: ranking order -/

/-- C4: every ranking operation orders its output by average score
descending, with ties broken by the lexicographically smaller key first
(`keyRel`), over the totally ordered key `(-score, name)`; the output of
each operation is the truncated ranked list projected to keys. -/
theorem C4_sort_order (n : Int) (g : String) (movies : MoviesDict)
    (ratings : RatingsDict) :
    List.Pairwise keyRel (pyTake n (rankedMovies ratings)) ∧
    List.Pairwise keyRel (pyTake n (rankedGenreMovies g movies ratings)) ∧
    List.Pairwise keyRel (pyTake n (rankedGenres movies ratings)) ∧
    top_movies n ratings = (pyTake n (rankedMovies ratings)).map Prod.fst ∧
    top_movies_in_genre n g movies ratings =
      (pyTake n (rankedGenreMovies g movies ratings)).map Prod.fst ∧
    top_genres n movies ratings = (pyTake n (rankedGenres movies ratings)).map Prod.fst :=
  ⟨List.Pairwise.sublist (pyTake_sublist n _) (rankedMovies_sorted ratings),
    List.Pairwise.sublist (pyTake_sublist n _) (rankedGenreMovies_sorted g movies ratings),
    List.Pairwise.sublist (pyTake_sublist n _) (rankedGenres_sorted movies ratings),
    rfl, rfl, rfl⟩

/-! ### Claim C10: no duplicates in ranked output -/

theorem keys_filterMap_sublist {α β : Type} (f : α → Option (String × β))
    (k : α → String) (hf : ∀ a b, f a = some b → b.1 = k a) :
    ∀ l : List α, ((l.filterMap f).map Prod.fst).Sublist (l.map k)
  | [] => by simp
  | a :: t => by
    cases hfa : f a with
    | none =>
      simpa [hfa] using (keys_filterMap_sublist f k hf t).cons (k a)
    | some b =>
      have hb : b.1 = k a := hf a b hfa
      simpa [hfa, hb] using (keys_filterMap_sublist f k hf t).cons₂ (k a)

theorem averagesList_keys_sublist (ratings : RatingsDict) :
    ((averagesList ratings).map Prod.fst).Sublist (ratings.map Prod.fst) := by
  refine keys_filterMap_sublist _ _ ?_ ratings
  intro p b h
  rcases Option.map_eq_some'.1 h with ⟨a, _, rfl⟩
  rfl

theorem genreMoviesList_keys_sublist (genre : String) (movies : MoviesDict)
    (ratings : RatingsDict) :
    ((genreMoviesList genre movies ratings).map Prod.fst).Sublist
      (movies.map Prod.fst) := by
  refine keys_filterMap_sublist _ _ ?_ movies
  intro p b h
  by_cases hg : p.2.2 = genre
  · simp only [hg, if_pos] at h
    rcases Option.map_eq_some'.1 h with ⟨a, _, rfl⟩
    rfl
  · simp [hg] at h

theorem keys_bump (l : List (String × ℚ × ℕ)) (g : String) (a : ℚ) :
    (bump l g a).map Prod.fst =
      if g ∈ l.map Prod.fst then l.map Prod.fst else l.map Prod.fst ++ [g] := by
  induction l with
  | nil => simp [bump]
  | cons q t ih =>
    by_cases h : q.1 = g
    · simp [bump, h]
    · by_cases hm : g ∈ t.map Prod.fst <;>
        simp [bump, h, ih, hm, List.mem_cons, Ne.symm h]

theorem keys_bump_nodup {l : List (String × ℚ × ℕ)} (h : (l.map Prod.fst).Nodup)
    (g : String) (a : ℚ) : ((bump l g a).map Prod.fst).Nodup := by
  rw [keys_bump]
  split
  · exact h
  · next hg => simp [List.nodup_append, h, hg]

theorem genreAgg_nodup_aux (ratings : RatingsDict) :
    ∀ (ms : MoviesDict) (acc : List (String × ℚ × ℕ)),
      (acc.map Prod.fst).Nodup →
      ((ms.foldl (fun acc p =>
        match movieAvg (dictGet ratings p.1) with
        | none => acc
        | some a => bump acc p.2.2 a) acc).map Prod.fst).Nodup
  | [], _, h => h
  | p :: t, acc, h => by
    cases hA : movieAvg (dictGet ratings p.1) with
    | none => simpa [hA] using genreAgg_nodup_aux ratings t acc h
    | some a => simpa [hA] using genreAgg_nodup_aux ratings t _ (keys_bump_nodup h _ _)

theorem genreAgg_keys_nodup (movies : MoviesDict) (ratings : RatingsDict) :
    ((genreAgg movies ratings).map Prod.fst).Nodup :=
  genreAgg_nodup_aux ratings movies [] (by simp)

theorem keys_genreMeans (movies : MoviesDict) (ratings : RatingsDict) :
    (genreMeans movies ratings).map Prod.fst = (genreAgg movies ratings).map Prod.fst := by
  simp [genreMeans, List.map_map, Function.comp]

theorem nodup_output_of_nodup_pairs {l : List (String × ℚ)} (n : Int)
    (h : (l.map Prod.fst).Nodup) : ((pyTake n (rankSort l)).map Prod.fst).Nodup := by
  have hperm : ((rankSort l).map Prod.fst).Perm (l.map Prod.fst) :=
    (rankSort_perm l).map Prod.fst
  have hs : ((rankSort l).map Prod.fst).Nodup := (hperm.nodup_iff).2 h
  exact ((pyTake_sublist n (rankSort l)).map Prod.fst).nodup hs

/-- C10: with the dict invariant that movie names are unique keys, the
outputs of `top_movies`, `top_movies_in_genre` and `top_genres` contain no
duplicate names; genre keys are aggregated into a unique-key mapping, so
`top_genres` needs no hypothesis at all. -/
theorem C10_no_duplicates (n : Int) (g : String) {movies : MoviesDict}
    {ratings : RatingsDict} (hr : (ratings.map Prod.fst).Nodup)
    (hm : (movies.map Prod.fst).Nodup) :
    (top_movies n ratings).Nodup ∧ (top_movies_in_genre n g movies ratings).Nodup ∧
    (top_genres n movies ratings).Nodup := by
  refine ⟨?_, ?_, ?_⟩
  · exact nodup_output_of_nodup_pairs n ((averagesList_keys_sublist ratings).nodup hr)
  · exact nodup_output_of_nodup_pairs n
      ((genreMoviesList_keys_sublist g movies ratings).nodup hm)
  · refine nodup_output_of_nodup_pairs n ?_
    rw [keys_genreMeans]
    exact genreAgg_keys_nodup movies ratings

theorem C10_no_duplicates_witness :
    (top_movies 2 exRatings).Nodup ∧ (top_movies_in_genre 2 "drama" exMovies exRatings).Nodup ∧
    (top_genres 2 exMovies exRatings).Nodup :=
  C10_no_duplicates 2 "drama" (by decide) (by decide)

/-! ### Claim C5: movies and genres without ratings never appear -/

theorem dictGet_eq_nil {ratings : RatingsDict} {m : String}
    (h : ∀ p ∈ ratings, p.1 = m → p.2 = []) : dictGet ratings m = [] := by
  unfold dictGet
  cases hf : ratings.find? (fun p => p.1 == m) with
  | none => rfl
  | some p =>
    have hp : p ∈ ratings := List.mem_of_find?_eq_some hf
    have hk := List.find?_some hf
    exact h p hp (by simpa using hk)

theorem mem_pyTake_ranked {l : List (String × ℚ)} {q : String × ℚ} {n : Int}
    (h : q ∈ pyTake n (rankSort l)) : q ∈ l :=
  (rankSort_perm l).subset ((pyTake_sublist n (rankSort l)).subset h)

theorem mem_top_movies {m : String} {n : Int} {ratings : RatingsDict}
    (h : m ∈ top_movies n ratings) :
    ∃ p ∈ ratings, p.1 = m ∧ (movieAvg p.2).isSome := by
  rcases List.mem_map.1 h with ⟨q, hq, rfl⟩
  have hq2 : q ∈ averagesList ratings := mem_pyTake_ranked hq
  rcases List.mem_filterMap.1 hq2 with ⟨p, hp, hpq⟩
  rcases Option.map_eq_some'.1 hpq with ⟨a, ha, rfl⟩
  exact ⟨p, hp, rfl, by simp [ha]⟩

theorem mem_top_movies_in_genre {m genre : String} {n : Int} {movies : MoviesDict}
    {ratings : RatingsDict} (h : m ∈ top_movies_in_genre n genre movies ratings) :
    ∃ p ∈ movies, p.1 = m ∧ p.2.2 = genre ∧ (movieAvg (dictGet ratings p.1)).isSome := by
  rcases List.mem_map.1 h with ⟨q, hq, rfl⟩
  have hq2 : q ∈ genreMoviesList genre movies ratings := mem_pyTake_ranked hq
  rcases List.mem_filterMap.1 hq2 with ⟨p, hp, hpq⟩
  by_cases hg : p.2.2 = genre
  · simp only [hg, if_pos] at hpq
    rcases Option.map_eq_some'.1 hpq with ⟨a, ha, rfl⟩
    exact ⟨p, hp, rfl, hg, by simp [ha]⟩
  · simp [hg] at hpq

theorem mem_keys_bump {l : List (String × ℚ × ℕ)} {g g2 : String} {a : ℚ}
    (h : g2 ∈ (bump l g a).map Prod.fst) : g2 ∈ l.map Prod.fst ∨ g2 = g := by
  rw [keys_bump] at h
  by_cases hm : g ∈ l.map Prod.fst
  · rw [if_pos hm] at h
    exact Or.inl h
  · rw [if_neg hm] at h
    simpa using h

theorem genreAgg_keys_source_aux (ratings : RatingsDict) :
    ∀ (ms : MoviesDict) (acc : List (String × ℚ × ℕ)) (g : String),
      g ∈ ((ms.foldl (fun acc p =>
        match movieAvg (dictGet ratings p.1) with
        | none => acc
        | some a => bump acc p.2.2 a) acc).map Prod.fst) →
      g ∈ acc.map Prod.fst ∨
        ∃ p ∈ ms, p.2.2 = g ∧ (movieAvg (dictGet ratings p.1)).isSome
  | [], _, g, h => Or.inl h
  | p :: t, acc, g, h => by
    cases hA : movieAvg (dictGet ratings p.1) with
    | none =>
      rw [List.foldl_cons] at h
      simp only [hA] at h
      rcases genreAgg_keys_source_aux ratings t acc g h with h2 | ⟨q, hq, hg, hs⟩
      · exact Or.inl h2
      · exact Or.inr ⟨q, List.mem_cons_of_mem p hq, hg, hs⟩
    | some a =>
      rw [List.foldl_cons] at h
      simp only [hA] at h
      rcases genreAgg_keys_source_aux ratings t _ g h with h2 | ⟨q, hq, hg, hs⟩
      · rcases mem_keys_bump h2 with h3 | rfl
        · exact Or.inl h3
        · exact Or.inr ⟨p, List.mem_cons_self p t, rfl, by simp [hA]⟩
      · exact Or.inr ⟨q, List.mem_cons_of_mem p hq, hg, hs⟩

theorem mem_top_genres {g : String} {n : Int} {movies : MoviesDict}
    {ratings : RatingsDict} (h : g ∈ top_genres n movies ratings) :
    ∃ p ∈ movies, p.2.2 = g ∧ (movieAvg (dictGet ratings p.1)).isSome := by
  rcases List.mem_map.1 h with ⟨q, hq, rfl⟩
  have hq2 : q ∈ genreMeans movies ratings := mem_pyTake_ranked hq
  have hk : q.1 ∈ (genreAgg movies ratings).map Prod.fst := by
    rw [← keys_genreMeans]
    exact List.mem_map_of_mem Prod.fst hq2
  rcases genreAgg_keys_source_aux ratings movies [] q.1 hk with h2 | h2
  · simp at h2
  · exact h2

/-- C5: a movie all of whose rating entries are empty never appears in
`top_movies` nor in `top_movies_in_genre`, and a genre none of whose
movies has a rating never appears in `top_genres` — such items are
excluded rather than scored 0. -/
theorem C5_unrated_excluded (n1 n2 n3 : Int) {m g g2 : String}
    {movies : MoviesDict} {ratings : RatingsDict}
    (h1 : ∀ p ∈ ratings, p.1 = m → p.2 = [])
    (h2 : ∀ p ∈ movies, p.2.2 = g → dictGet ratings p.1 = []) :
    m ∉ top_movies n1 ratings ∧ m ∉ top_movies_in_genre n2 g2 movies ratings ∧
    g ∉ top_genres n3 movies ratings := by
  refine ⟨fun hm => ?_, fun hm => ?_, fun hg => ?_⟩
  · rcases mem_top_movies hm with ⟨p, hp, hpm, hs⟩
    rw [h1 p hp hpm] at hs
    simp [movieAvg] at hs
  · rcases mem_top_movies_in_genre hm with ⟨p, hp, hpm, _, hs⟩
    rw [hpm, dictGet_eq_nil h1] at hs
    simp [movieAvg] at hs
  · rcases mem_top_genres hg with ⟨p, hp, hpg, hs⟩
    rw [h2 p hp hpg] at hs
    simp [movieAvg] at hs

theorem C5_unrated_excluded_witness :
    "c" ∉ top_movies 5 (exRatings ++ [("c", [])]) ∧
    "c" ∉ top_movies_in_genre 5 "drama" (exMovies ++ [("c", (.int 3, "scifi"))])
      (exRatings ++ [("c", [])]) ∧
    "scifi" ∉ top_genres 5 (exMovies ++ [("c", (.int 3, "scifi"))])
      (exRatings ++ [("c", [])]) :=
  C5_unrated_excluded 5 5 5 (by decide) (by decide)

/-! ### Claim C7: unknown names yield empty results, no exceptions -/

theorem genreMoviesList_eq_nil {genre : String} {movies : MoviesDict}
    (ratings : RatingsDict) (hg : ∀ p ∈ movies, p.2.2 ≠ genre) :
    genreMoviesList genre movies ratings = [] := by
  rw [genreMoviesList, List.filterMap_eq_nil_iff]
  intro p hp
  simp [hg p hp]

theorem ratingStep_of_ne {uid : UserId} (movies : MoviesDict) (mname : String)
    (acc2 : List (String × List ℚ)) {item : UserId × ℚ}
    (h : item.1.toStr ≠ uid.toStr) : ratingStep uid movies mname acc2 item = acc2 := by
  rw [ratingStep, contribOf, if_neg h]

theorem inner_fold_id (uid : UserId) (movies : MoviesDict) (mname : String) :
    ∀ (items : List (UserId × ℚ)) (acc : List (String × List ℚ)),
      (∀ q ∈ items, q.1.toStr ≠ uid.toStr) →
      items.foldl (ratingStep uid movies mname) acc = acc
  | [], _, _ => rfl
  | q :: t, acc, h => by
    rw [List.foldl_cons, ratingStep_of_ne movies mname acc (h q (List.mem_cons_self q t))]
    exact inner_fold_id uid movies mname t acc fun r hr => h r (List.mem_cons_of_mem q hr)

theorem genreRatingsOf_eq_nil {uid : UserId} {movies : MoviesDict}
    {ratings : RatingsDict} (hu : ∀ p ∈ ratings, ∀ q ∈ p.2, q.1.toStr ≠ uid.toStr) :
    genreRatingsOf uid movies ratings = [] := by
  rw [genreRatingsOf]
  have : ∀ (rs : List (String × List (UserId × ℚ))) (acc : List (String × List ℚ)),
      (∀ p ∈ rs, ∀ q ∈ p.2, q.1.toStr ≠ uid.toStr) →
      rs.foldl (fun acc p => p.2.foldl (ratingStep uid movies p.1) acc) acc = acc := by
    intro rs
    induction rs with
    | nil => intro acc _; rfl
    | cons p t ih =>
      intro acc h
      rw [List.foldl_cons, inner_fold_id uid movies p.1 p.2 acc
        (h p (List.mem_cons_self p t))]
      exact ih acc fun r hr => h r (List.mem_cons_of_mem p hr)
  exact this ratings [] hu

/-- C7: the embedded query operations are total functions (no exceptions);
a genre matching no catalog entry yields the empty list from
`top_movies_in_genre`, and a user id matching no stored rating yields the
empty string from `user_top_genre` and the empty list from
`recommend_movies`. -/
theorem C7_unknown_names_empty (n : Int) {g : String} {uid : UserId}
    {movies : MoviesDict} {ratings : RatingsDict}
    (hg : ∀ p ∈ movies, p.2.2 ≠ g)
    (hu : ∀ p ∈ ratings, ∀ q ∈ p.2, q.1.toStr ≠ uid.toStr) :
    top_movies_in_genre n g movies ratings = [] ∧
    user_top_genre uid movies ratings = "" ∧
    recommend_movies uid movies ratings = [] := by
  have h1 : top_movies_in_genre n g movies ratings = [] := by
    simp [top_movies_in_genre, rankedGenreMovies, genreMoviesList_eq_nil ratings hg,
      rankSort, pyTake]
  have h2 : user_top_genre uid movies ratings = "" := by
    simp [user_top_genre, genreRatingsOf_eq_nil hu]
  exact ⟨h1, h2, by simp [recommend_movies, h2]⟩

theorem C7_unknown_names_empty_witness :
    top_movies_in_genre 3 "western" exMovies exRatings = [] ∧
    user_top_genre (.str "nobody") exMovies exRatings = "" ∧
    recommend_movies (.str "nobody") exMovies exRatings = [] :=
  C7_unknown_names_empty 3 (by decide) (by decide)

/-! ### Claim C3: structure of recommend_movies -/

/-- C3: `recommend_movies(u)` returns the empty list when the top genre of
the user is empty; otherwise it is the first at most 3 entries, in ranked
order, of the top-50 candidate pool of that genre with every movie the
user has rated removed; consequently it never contains a movie the user
rated and is always a subset of the candidate pool. -/
theorem C3_recommend_structure (uid : UserId) (movies : MoviesDict)
    (ratings : RatingsDict) :
    (user_top_genre uid movies ratings = "" → recommend_movies uid movies ratings = []) ∧
    (user_top_genre uid movies ratings ≠ "" →
      recommend_movies uid movies ratings =
        ((top_movies_in_genre 50 (user_top_genre uid movies ratings) movies ratings).filter
          (fun m => !userRated uid ratings m)).take 3) ∧
    (∀ m ∈ recommend_movies uid movies ratings, userRated uid ratings m = false) ∧
    (∀ m ∈ recommend_movies uid movies ratings,
      m ∈ top_movies_in_genre 50 (user_top_genre uid movies ratings) movies ratings) := by
  by_cases hf : user_top_genre uid movies ratings = ""
  · have h0 : recommend_movies uid movies ratings = [] := by
      simp [recommend_movies, hf]
    refine ⟨fun _ => h0, fun hne => absurd hf hne, ?_, ?_⟩ <;> simp [h0]
  · have h0 : recommend_movies uid movies ratings =
        ((top_movies_in_genre 50 (user_top_genre uid movies ratings) movies
          ratings).filter (fun m => !userRated uid ratings m)).take 3 := by
      simp [recommend_movies, hf]
    refine ⟨fun h => absurd h hf, fun _ => h0, fun m hm => ?_, fun m hm => ?_⟩
    · rw [h0] at hm
      have hm2 := List.mem_of_mem_take hm
      have := (List.mem_filter.1 hm2).2
      simpa using this
    · rw [h0] at hm
      exact (List.mem_filter.1 (List.mem_of_mem_take hm)).1

theorem C3_recommend_structure_witness :
    recommend_movies (.str "nothere") exMovies exRatings = [] :=
  (C3_recommend_structure (.str "nothere") exMovies exRatings).1
    (by norm_num +decide [user_top_genre, genreRatingsOf, ratingStep, contribOf, bestStep, addAt, avgList,
      catGet, List.find?, UserId.toStr, exMovies, exRatings])

/-! ### Claim C2: the genre average is the mean of per-movie averages -/

/-- Joint read of `genre_avgs.get(g, 0.0)` and `genre_counts.get(g, 0)`. -/
def aggGet (l : List (String × ℚ × ℕ)) (g : String) : ℚ × ℕ :=
  match l.find? (fun p => p.1 == g) with
  | some p => p.2
  | none => (0, 0)

/-- Lookup in the `genre_mean` dict. -/
def meansGet (l : List (String × ℚ)) (g : String) : Option ℚ :=
  (l.find? (fun p => p.1 == g)).map Prod.snd

/-- The per-movie averages of the rated movies of a genre, in catalog
order. -/
def genreRatedAvgs (g : String) (movies : MoviesDict) (ratings : RatingsDict) : List ℚ :=
  movies.filterMap (fun p => if p.2.2 = g then movieAvg (dictGet ratings p.1) else none)

theorem aggGet_bump (l : List (String × ℚ × ℕ)) (g g2 : String) (a : ℚ) :
    aggGet (bump l g a) g2 =
      if g2 = g then ((aggGet l g2).1 + a, (aggGet l g2).2 + 1) else aggGet l g2 := by
  induction l with
  | nil =>
    by_cases h : g2 = g
    · have hb : (g == g2) = true := by simp [h]
      simp [bump, aggGet, List.find?, h, hb]
    · have hb : (g == g2) = false := by simp; exact fun hc => h hc.symm
      simp [bump, aggGet, List.find?, h, hb]
  | cons q t ih =>
    by_cases hq : q.1 = g
    · by_cases h : g2 = g
      · have hb : (q.1 == g2) = true := by simp [hq, h]
        have hbg : (q.1 == g) = true := by simp [hq]
        simp [bump, aggGet, List.find?, if_pos hq, h, hb, hbg]
      · have hb : (q.1 == g2) = false := by
          simp
          exact fun hc => h (hc.symm.trans hq)
        simp [bump, aggGet, List.find?, if_pos hq, h, hb]
    · by_cases hqg : q.1 = g2
      · have h : g2 ≠ g := fun hc => hq (hqg.trans hc)
        have hb : (q.1 == g2) = true := by simp [hqg]
        simp [bump, aggGet, List.find?, if_neg hq, h, hb]
      · have hb : (q.1 == g2) = false := by simpa using hqg
        have ih2 := ih
        simp only [aggGet] at ih2
        simp only [bump, if_neg hq, aggGet, List.find?, hb]
        exact ih2

theorem genreAgg_get_aux (ratings : RatingsDict) (g : String) :
    ∀ (ms : MoviesDict) (acc : List (String × ℚ × ℕ)),
      aggGet (ms.foldl (fun acc p =>
        match movieAvg (dictGet ratings p.1) with
        | none => acc
        | some a => bump acc p.2.2 a) acc) g =
      ((aggGet acc g).1 + (genreRatedAvgs g ms ratings).sum,
        (aggGet acc g).2 + (genreRatedAvgs g ms ratings).length)
  | [], acc => by simp [genreRatedAvgs]
  | p :: t, acc => by
    cases hA : movieAvg (dictGet ratings p.1) with
    | none =>
      rw [List.foldl_cons]
      simp only [hA]
      rw [genreAgg_get_aux ratings g t acc]
      by_cases hg : p.2.2 = g <;> simp [genreRatedAvgs, hg, hA]
    | some a =>
      rw [List.foldl_cons]
      simp only [hA]
      rw [genreAgg_get_aux ratings g t (bump acc p.2.2 a), aggGet_bump]
      by_cases hg : p.2.2 = g
      · rw [if_pos (hg ▸ rfl)]
        simp only [genreRatedAvgs, List.filterMap_cons, hg, if_pos rfl, hA]
        simp [genreRatedAvgs, List.sum_cons, add_assoc, add_comm a]
        omega
      · rw [if_neg (fun hc => hg hc.symm)]
        simp [genreRatedAvgs, hg, hA]

theorem genreAgg_get (movies : MoviesDict) (ratings : RatingsDict) (g : String) :
    aggGet (genreAgg movies ratings) g =
      ((genreRatedAvgs g movies ratings).sum, (genreRatedAvgs g movies ratings).length) := by
  rw [genreAgg, genreAgg_get_aux ratings g movies []]
  simp [aggGet, List.find?]

theorem bump_count_pos {l : List (String × ℚ × ℕ)} (hl : ∀ p ∈ l, 0 < p.2.2)
    (g : String) (a : ℚ) : ∀ p ∈ bump l g a, 0 < p.2.2 := by
  induction l with
  | nil =>
    intro p hp
    simp [bump] at hp
    simp [hp]
  | cons q t ih =>
    intro p hp
    by_cases hq : q.1 = g
    · rw [bump, if_pos hq] at hp
      rcases List.mem_cons.1 hp with rfl | hp2
      · simp
      · exact hl p (List.mem_cons_of_mem q hp2)
    · rw [bump, if_neg hq] at hp
      rcases List.mem_cons.1 hp with rfl | hp2
      · exact hl _ (List.mem_cons_self _ _)
      · exact ih (fun r hr => hl r (List.mem_cons_of_mem q hr)) p hp2

theorem genreAgg_count_pos_aux (ratings : RatingsDict) :
    ∀ (ms : MoviesDict) (acc : List (String × ℚ × ℕ)),
      (∀ p ∈ acc, 0 < p.2.2) →
      ∀ p ∈ ms.foldl (fun acc p =>
        match movieAvg (dictGet ratings p.1) with
        | none => acc
        | some a => bump acc p.2.2 a) acc, 0 < p.2.2
  | [], _, h => h
  | p :: t, acc, h => by
    cases hA : movieAvg (dictGet ratings p.1) with
    | none =>
      rw [List.foldl_cons]
      simp only [hA]
      exact genreAgg_count_pos_aux ratings t acc h
    | some a =>
      rw [List.foldl_cons]
      simp only [hA]
      exact genreAgg_count_pos_aux ratings t _ (bump_count_pos h _ _)

theorem genreAgg_count_pos (movies : MoviesDict) (ratings : RatingsDict) :
    ∀ p ∈ genreAgg movies ratings, 0 < p.2.2 :=
  genreAgg_count_pos_aux ratings movies [] (by simp)

theorem aggGet_of_mem : ∀ {l : List (String × ℚ × ℕ)},
    (l.map Prod.fst).Nodup → ∀ {t : String × ℚ × ℕ}, t ∈ l → aggGet l t.1 = t.2
  | [], _, _, ht => by simp at ht
  | q :: r, hnd, t, ht => by
    rcases List.mem_cons.1 ht with rfl | ht2
    · simp [aggGet, List.find?]
    · have hq1 : q.1 ≠ t.1 := by
        intro hc
        have : t.1 ∈ r.map Prod.fst := List.mem_map_of_mem Prod.fst ht2
        rw [← hc] at this
        exact (List.nodup_cons.1 (by simpa using hnd)).1 this
      have hb : (q.1 == t.1) = false := by simpa using hq1
      have ih := aggGet_of_mem (List.nodup_cons.1 (by simpa using hnd)).2 ht2
      simp only [aggGet, List.find?, hb] at *
      exact ih

theorem genreAverageSpec_eq (g : String) (movies : MoviesDict) (ratings : RatingsDict) :
    genreAverageSpec g movies ratings =
      if (genreRatedAvgs g movies ratings).isEmpty then none
      else some (avgList (genreRatedAvgs g movies ratings)) := rfl

/-- C2: the `genre_mean` value that `top_genres` ranks equals the
genre average of the specification: the mean of the per-movie average
ratings of the rated movies of the genre (average of averages, not a pooled mean of
raw ratings). -/
theorem C2_genre_average (movies : MoviesDict) (ratings : RatingsDict) (g : String) :
    meansGet (genreMeans movies ratings) g = genreAverageSpec g movies ratings := by
  have hfind : (genreMeans movies ratings).find? (fun p => p.1 == g) =
      ((genreAgg movies ratings).find? (fun t => t.1 == g)).map
        (fun t => (t.1, t.2.1 / (t.2.2 : ℚ))) := by
    rw [genreMeans, List.find?_map]
    rfl
  have hget := genreAgg_get movies ratings g
  cases hf : (genreAgg movies ratings).find? (fun t => t.1 == g) with
  | none =>
    have hagg : aggGet (genreAgg movies ratings) g = (0, 0) := by
      rw [aggGet, hf]
    have hlen : (genreRatedAvgs g movies ratings).length = 0 := by
      have := hagg.symm.trans hget
      exact (congrArg Prod.snd this).symm
    have hnil : genreRatedAvgs g movies ratings = [] :=
      List.eq_nil_of_length_eq_zero hlen
    rw [meansGet, hfind, hf, genreAverageSpec_eq, hnil]
    rfl
  | some t =>
    have ht : t ∈ genreAgg movies ratings := List.mem_of_find?_eq_some hf
    have htg : t.1 = g := by simpa using List.find?_some hf
    have hagg : aggGet (genreAgg movies ratings) g = t.2 :=
      htg ▸ aggGet_of_mem (genreAgg_keys_nodup movies ratings) ht
    have ht2 : t.2 = ((genreRatedAvgs g movies ratings).sum,
        (genreRatedAvgs g movies ratings).length) := hagg.symm.trans hget
    have hpos : 0 < t.2.2 := genreAgg_count_pos movies ratings t ht
    have hne : ¬ (genreRatedAvgs g movies ratings).isEmpty := by
      rw [ht2] at hpos
      simp only [List.isEmpty_iff]
      intro hc
      rw [hc] at hpos
      simp at hpos
    rw [meansGet, hfind, hf, genreAverageSpec_eq, if_neg hne]
    simp only [Option.map_some']
    congr 1
    rw [avgList]
    rw [ht2]

/-! ### Claim C6: user_top_genre returns the first genre of maximal mean -/

/-- The user has at least one rating on a cataloged movie. -/
def hasUserRating (uid : UserId) (movies : MoviesDict) (ratings : RatingsDict) : Prop :=
  ∃ p ∈ ratings, ∃ q ∈ p.2, q.1.toStr = uid.toStr ∧ (catGet movies p.1).isSome

instance hasUserRating.instDecidable (uid : UserId) (movies : MoviesDict)
    (ratings : RatingsDict) : Decidable (hasUserRating uid movies ratings) := by
  unfold hasUserRating
  infer_instance

/-- The rating an item contributes to genre `g` (if any). -/
def userContrib (uid : UserId) (movies : MoviesDict) (mname : String) (g : String)
    (item : UserId × ℚ) : Option ℚ :=
  match contribOf uid movies mname item with
  | some g2 => if g2 = g then some item.2 else none
  | none => none

/-- All ratings the user gave to cataloged movies of genre `g`, in store
iteration order: exactly what the `genre_ratings[g]` list accumulates. -/
def userGenreRatings (uid : UserId) (movies : MoviesDict) (ratings : RatingsDict)
    (g : String) : List ℚ :=
  ratings.flatMap (fun p => p.2.filterMap (userContrib uid movies p.1 g))

/-- Lookup in the `genre_ratings` dict. -/
def grGet (l : List (String × List ℚ)) (g : String) : List ℚ :=
  match l.find? (fun p => p.1 == g) with
  | some p => p.2
  | none => []

theorem grGet_addAt (l : List (String × List ℚ)) (g g2 : String) (v : ℚ) :
    grGet (addAt l g v) g2 =
      if g2 = g then grGet l g2 ++ [v] else grGet l g2 := by
  induction l with
  | nil =>
    by_cases h : g2 = g
    · have hb : (g == g2) = true := by simp [h]
      simp [addAt, grGet, List.find?, h, hb]
    · have hb : (g == g2) = false := by simp; exact fun hc => h hc.symm
      simp [addAt, grGet, List.find?, h, hb]
  | cons q t ih =>
    by_cases hq : q.1 = g
    · by_cases h : g2 = g
      · have hb : (q.1 == g2) = true := by simp [hq, h]
        have hbg : (q.1 == g) = true := by simp [hq]
        simp [addAt, grGet, List.find?, if_pos hq, h, hb, hbg]
      · have hb : (q.1 == g2) = false := by
          simp
          exact fun hc => h (hc.symm.trans hq)
        simp [addAt, grGet, List.find?, if_pos hq, h, hb]
    · by_cases hqg : q.1 = g2
      · have h : g2 ≠ g := fun hc => hq (hqg.trans hc)
        have hb : (q.1 == g2) = true := by simp [hqg]
        simp [addAt, grGet, List.find?, if_neg hq, h, hb]
      · have hb : (q.1 == g2) = false := by simpa using hqg
        have ih2 := ih
        simp only [grGet] at ih2
        simp only [addAt, if_neg hq, grGet, List.find?, hb]
        exact ih2

theorem keys_addAt (l : List (String × List ℚ)) (g : String) (v : ℚ) :
    (addAt l g v).map Prod.fst =
      if g ∈ l.map Prod.fst then l.map Prod.fst else l.map Prod.fst ++ [g] := by
  induction l with
  | nil => simp [addAt]
  | cons q t ih =>
    by_cases h : q.1 = g
    · simp [addAt, h]
    · by_cases hm : g ∈ t.map Prod.fst <;>
        simp [addAt, h, ih, hm, List.mem_cons, Ne.symm h]

theorem keys_addAt_nodup {l : List (String × List ℚ)} (h : (l.map Prod.fst).Nodup)
    (g : String) (v : ℚ) : ((addAt l g v).map Prod.fst).Nodup := by
  rw [keys_addAt]
  split
  · exact h
  · next hg => simp [List.nodup_append, h, hg]

theorem addAt_snd_ne_nil {l : List (String × List ℚ)} (h : ∀ p ∈ l, p.2 ≠ [])
    (g : String) (v : ℚ) : ∀ p ∈ addAt l g v, p.2 ≠ [] := by
  induction l with
  | nil =>
    intro p hp
    simp [addAt] at hp
    simp [hp]
  | cons q t ih =>
    intro p hp
    by_cases hq : q.1 = g
    · rw [addAt, if_pos hq] at hp
      rcases List.mem_cons.1 hp with rfl | hp2
      · simp
      · exact h p (List.mem_cons_of_mem q hp2)
    · rw [addAt, if_neg hq] at hp
      rcases List.mem_cons.1 hp with rfl | hp2
      · exact h _ (List.mem_cons_self _ _)
      · exact ih (fun r hr => h r (List.mem_cons_of_mem q hr)) p hp2

theorem grGet_of_mem : ∀ {l : List (String × List ℚ)},
    (l.map Prod.fst).Nodup → ∀ {t : String × List ℚ}, t ∈ l → grGet l t.1 = t.2
  | [], _, _, ht => by simp at ht
  | q :: r, hnd, t, ht => by
    rcases List.mem_cons.1 ht with rfl | ht2
    · simp [grGet, List.find?]
    · have hq1 : q.1 ≠ t.1 := by
        intro hc
        have : t.1 ∈ r.map Prod.fst := List.mem_map_of_mem Prod.fst ht2
        rw [← hc] at this
        exact (List.nodup_cons.1 (by simpa using hnd)).1 this
      have hb : (q.1 == t.1) = false := by simpa using hq1
      have ih := grGet_of_mem (List.nodup_cons.1 (by simpa using hnd)).2 ht2
      simp only [grGet, List.find?, hb] at *
      exact ih

theorem grGet_ratingStep (uid : UserId) (movies : MoviesDict) (mname : String)
    (acc : List (String × List ℚ)) (item : UserId × ℚ) (g : String) :
    grGet (ratingStep uid movies mname acc item) g =
      grGet acc g ++ (userContrib uid movies mname g item).toList := by
  rw [ratingStep, userContrib]
  cases hc : contribOf uid movies mname item with
  | none => simp
  | some g2 =>
    rw [grGet_addAt]
    by_cases hg : g2 = g
    · simp [hg]
    · have hg2 : g ≠ g2 := fun hcg => hg hcg.symm
      simp [hg, hg2]

theorem grGet_innerFold (uid : UserId) (movies : MoviesDict) (mname : String) :
    ∀ (items : List (UserId × ℚ)) (acc : List (String × List ℚ)) (g : String),
      grGet (items.foldl (ratingStep uid movies mname) acc) g =
        grGet acc g ++ items.filterMap (userContrib uid movies mname g)
  | [], acc, g => by simp
  | q :: t, acc, g => by
    rw [List.foldl_cons, List.filterMap_cons,
      grGet_innerFold uid movies mname t _ g, grGet_ratingStep]
    cases hc : userContrib uid movies mname g q with
    | none => simp
    | some v => simp

theorem grGet_outerFold (uid : UserId) (movies : MoviesDict) :
    ∀ (rs : RatingsDict) (acc : List (String × List ℚ)) (g : String),
      grGet (rs.foldl (fun acc p => p.2.foldl (ratingStep uid movies p.1) acc) acc) g =
        grGet acc g ++ rs.flatMap (fun p => p.2.filterMap (userContrib uid movies p.1 g))
  | [], acc, g => by simp
  | p :: t, acc, g => by
    rw [List.foldl_cons, List.flatMap_cons,
      grGet_outerFold uid movies t _ g, grGet_innerFold uid movies p.1 p.2 acc g]
    rw [List.append_assoc]

theorem grGet_genreRatingsOf (uid : UserId) (movies : MoviesDict)
    (ratings : RatingsDict) (g : String) :
    grGet (genreRatingsOf uid movies ratings) g = userGenreRatings uid movies ratings g := by
  rw [genreRatingsOf, userGenreRatings, grGet_outerFold uid movies ratings [] g]
  simp [grGet, List.find?]

theorem ratingStep_keys_nodup {acc : List (String × List ℚ)}
    (h : (acc.map Prod.fst).Nodup) (uid : UserId) (movies : MoviesDict)
    (mname : String) (item : UserId × ℚ) :
    ((ratingStep uid movies mname acc item).map Prod.fst).Nodup := by
  rw [ratingStep]
  cases contribOf uid movies mname item with
  | none => exact h
  | some g => exact keys_addAt_nodup h g item.2

theorem ratingStep_snd_ne_nil {acc : List (String × List ℚ)}
    (h : ∀ p ∈ acc, p.2 ≠ []) (uid : UserId) (movies : MoviesDict)
    (mname : String) (item : UserId × ℚ) :
    ∀ p ∈ ratingStep uid movies mname acc item, p.2 ≠ [] := by
  rw [ratingStep]
  cases contribOf uid movies mname item with
  | none => exact h
  | some g => exact addAt_snd_ne_nil h g item.2

theorem innerFold_invariant (uid : UserId) (movies : MoviesDict) (mname : String) :
    ∀ (items : List (UserId × ℚ)) (acc : List (String × List ℚ)),
      (acc.map Prod.fst).Nodup → (∀ p ∈ acc, p.2 ≠ []) →
      ((items.foldl (ratingStep uid movies mname) acc).map Prod.fst).Nodup ∧
      ∀ p ∈ items.foldl (ratingStep uid movies mname) acc, p.2 ≠ []
  | [], _, h1, h2 => ⟨h1, h2⟩
  | q :: t, acc, h1, h2 => by
    rw [List.foldl_cons]
    exact innerFold_invariant uid movies mname t _
      (ratingStep_keys_nodup h1 uid movies mname q)
      (ratingStep_snd_ne_nil h2 uid movies mname q)

theorem genreRatingsOf_invariant_aux (uid : UserId) (movies : MoviesDict) :
    ∀ (rs : RatingsDict) (acc : List (String × List ℚ)),
      (acc.map Prod.fst).Nodup → (∀ p ∈ acc, p.2 ≠ []) →
      ((rs.foldl (fun acc p => p.2.foldl (ratingStep uid movies p.1) acc) acc).map
        Prod.fst).Nodup ∧
      ∀ p ∈ rs.foldl (fun acc p => p.2.foldl (ratingStep uid movies p.1) acc) acc,
        p.2 ≠ []
  | [], _, h1, h2 => ⟨h1, h2⟩
  | p :: t, acc, h1, h2 => by
    rw [List.foldl_cons]
    have hinner := innerFold_invariant uid movies p.1 p.2 acc h1 h2
    exact genreRatingsOf_invariant_aux uid movies t _ hinner.1 hinner.2

theorem genreRatingsOf_keys_nodup (uid : UserId) (movies : MoviesDict)
    (ratings : RatingsDict) :
    ((genreRatingsOf uid movies ratings).map Prod.fst).Nodup :=
  (genreRatingsOf_invariant_aux uid movies ratings [] (by simp) (by simp)).1

theorem genreRatingsOf_snd_ne_nil (uid : UserId) (movies : MoviesDict)
    (ratings : RatingsDict) :
    ∀ p ∈ genreRatingsOf uid movies ratings, p.2 ≠ [] :=
  (genreRatingsOf_invariant_aux uid movies ratings [] (by simp) (by simp)).2

theorem mem_userGenreRatings {x : ℚ} {uid : UserId} {movies : MoviesDict}
    {ratings : RatingsDict} {g : String}
    (h : x ∈ userGenreRatings uid movies ratings g) :
    ∃ p ∈ ratings, ∃ q ∈ p.2, q.1.toStr = uid.toStr ∧ (catGet movies p.1).isSome ∧
      q.2 = x := by
  rcases List.mem_flatMap.1 h with ⟨p, hp, hx⟩
  rcases List.mem_filterMap.1 hx with ⟨q, hq, hqx⟩
  rw [userContrib] at hqx
  cases hc : contribOf uid movies p.1 q with
  | none => simp [hc] at hqx
  | some g2 =>
    simp only [hc] at hqx
    by_cases hg : g2 = g
    · rw [if_pos hg] at hqx
      rw [contribOf] at hc
      by_cases hu : q.1.toStr = uid.toStr
      · rw [if_pos hu] at hc
        cases hcat : catGet movies p.1 with
        | none => rw [hcat] at hc; simp at hc
        | some info =>
          exact ⟨p, hp, q, hq, hu, by simp [hcat], by simpa using hqx⟩
      · rw [if_neg hu] at hc
        simp at hc
    · rw [if_neg hg] at hqx
      simp at hqx

theorem userGenreRatings_ne_nil_of_has {uid : UserId} {movies : MoviesDict}
    {ratings : RatingsDict} (h : hasUserRating uid movies ratings) :
    ∃ g, userGenreRatings uid movies ratings g ≠ [] := by
  rcases h with ⟨p, hp, q, hq, hu, hsome⟩
  rcases Option.isSome_iff_exists.1 hsome with ⟨info, hinfo⟩
  refine ⟨info.2, fun hnil => ?_⟩
  have hmem : q.2 ∈ userGenreRatings uid movies ratings info.2 := by
    refine List.mem_flatMap.2 ⟨p, hp, List.mem_filterMap.2 ⟨q, hq, ?_⟩⟩
    rw [userContrib, contribOf, if_pos hu, hinfo]
    simp
  rw [hnil] at hmem
  simp at hmem

theorem genreRatingsOf_ne_nil_of_has {uid : UserId} {movies : MoviesDict}
    {ratings : RatingsDict} (h : hasUserRating uid movies ratings) :
    genreRatingsOf uid movies ratings ≠ [] := by
  rcases userGenreRatings_ne_nil_of_has h with ⟨g, hg⟩
  intro hnil
  rw [← grGet_genreRatingsOf uid movies ratings g, hnil] at hg
  exact hg rfl

theorem genreRatingsOf_nil_of_not_has {uid : UserId} {movies : MoviesDict}
    {ratings : RatingsDict} (h : ¬ hasUserRating uid movies ratings) :
    genreRatingsOf uid movies ratings = [] := by
  by_contra hne
  rcases List.exists_mem_of_ne_nil _ hne with ⟨e, he⟩
  have hval : e.2 = userGenreRatings uid movies ratings e.1 := by
    rw [← grGet_genreRatingsOf uid movies ratings e.1]
    exact (grGet_of_mem (genreRatingsOf_keys_nodup uid movies ratings) he).symm
  have hne2 : e.2 ≠ [] := genreRatingsOf_snd_ne_nil uid movies ratings e he
  rcases List.exists_mem_of_ne_nil _ hne2 with ⟨x, hx⟩
  rw [hval] at hx
  rcases mem_userGenreRatings hx with ⟨p, hp, q, hq, hu, hsome, _⟩
  exact h ⟨p, hp, q, hq, hu, hsome⟩

theorem avgList_nonneg {l : List ℚ} (h : ∀ x ∈ l, 0 ≤ x) : 0 ≤ avgList l :=
  div_nonneg (List.sum_nonneg h) (Nat.cast_nonneg _)

theorem bestFold_spec : ∀ (l : List (String × List ℚ)) (b : String × ℚ),
    (l.foldl bestStep b = b ∧ ∀ p ∈ l, ¬ p.2.isEmpty → avgList p.2 ≤ b.2) ∨
    (∃ l1 p l2, l = l1 ++ p :: l2 ∧ ¬ p.2.isEmpty ∧
      l.foldl bestStep b = (p.1, avgList p.2) ∧ b.2 < avgList p.2 ∧
      (∀ q ∈ l1, ¬ q.2.isEmpty → avgList q.2 < avgList p.2) ∧
      (∀ q ∈ l2, ¬ q.2.isEmpty → avgList q.2 ≤ avgList p.2))
  | [], b => Or.inl ⟨rfl, by simp⟩
  | p :: t, b => by
    by_cases hE : p.2.isEmpty
    · have hstep : bestStep b p = b := by rw [bestStep, if_pos hE]
      rw [List.foldl_cons, hstep]
      rcases bestFold_spec t b with ⟨h1, h2⟩ | ⟨l1, c, l2, ht, hc, hres, hgt, hearly, hlate⟩
      · left
        refine ⟨h1, fun q hq hqe => ?_⟩
        rcases List.mem_cons.1 hq with rfl | hq2
        · exact absurd hE hqe
        · exact h2 q hq2 hqe
      · right
        refine ⟨p :: l1, c, l2, by simp [ht], hc, hres, hgt, fun q hq hqe => ?_, hlate⟩
        rcases List.mem_cons.1 hq with rfl | hq2
        · exact absurd hE hqe
        · exact hearly q hq2 hqe
    · by_cases hgt : avgList p.2 > b.2
      · have hstep : bestStep b p = (p.1, avgList p.2) := by
          rw [bestStep, if_neg hE, if_pos hgt]
        rw [List.foldl_cons, hstep]
        rcases bestFold_spec t (p.1, avgList p.2) with ⟨h1, h2⟩ |
          ⟨l1, c, l2, ht, hc, hres, hgt2, hearly, hlate⟩
        · right
          exact ⟨[], p, t, rfl, hE, h1, hgt, by simp, fun q hq hqe => h2 q hq hqe⟩
        · right
          refine ⟨p :: l1, c, l2, by simp [ht], hc, hres, lt_trans hgt hgt2,
            fun q hq hqe => ?_, hlate⟩
          rcases List.mem_cons.1 hq with rfl | hq2
          · exact hgt2
          · exact hearly q hq2 hqe
      · have hstep : bestStep b p = b := by rw [bestStep, if_neg hE, if_neg hgt]
        rw [List.foldl_cons, hstep]
        have hle : avgList p.2 ≤ b.2 := not_lt.1 hgt
        rcases bestFold_spec t b with ⟨h1, h2⟩ |
          ⟨l1, c, l2, ht, hc, hres, hgt2, hearly, hlate⟩
        · left
          refine ⟨h1, fun q hq hqe => ?_⟩
          rcases List.mem_cons.1 hq with rfl | hq2
          · exact hle
          · exact h2 q hq2 hqe
        · right
          refine ⟨p :: l1, c, l2, by simp [ht], hc, hres, hgt2,
            fun q hq hqe => ?_, hlate⟩
          rcases List.mem_cons.1 hq with rfl | hq2
          · exact lt_of_le_of_lt hle hgt2
          · exact hearly q hq2 hqe

/-- C6: with the stored-rating validity invariant (ratings nonnegative,
as the loader range check [0,5] guarantees), `user_top_genre` returns the
empty string when the user has no rating on a cataloged movie; otherwise
it returns the first genre, in encounter order of the `genre_ratings`
dict, whose mean of all ratings by the user in that genre attains the
maximum (strictly-greater comparison keeps the earlier genre on ties). -/
theorem C6_user_top_genre (uid : UserId) (movies : MoviesDict) (ratings : RatingsDict)
    (hval : ∀ p ∈ ratings, ∀ q ∈ p.2, 0 ≤ q.2) :
    (¬ hasUserRating uid movies ratings → user_top_genre uid movies ratings = "") ∧
    (hasUserRating uid movies ratings →
      ∃ l1 vs l2, genreRatingsOf uid movies ratings
          = l1 ++ (user_top_genre uid movies ratings, vs) :: l2 ∧
        vs = userGenreRatings uid movies ratings (user_top_genre uid movies ratings) ∧
        vs ≠ [] ∧
        (∀ q ∈ l1, avgList q.2 < avgList vs) ∧
        (∀ q ∈ genreRatingsOf uid movies ratings, avgList q.2 ≤ avgList vs) ∧
        (∀ q ∈ genreRatingsOf uid movies ratings,
          q.2 = userGenreRatings uid movies ratings q.1)) := by
  have hvals : ∀ q ∈ genreRatingsOf uid movies ratings,
      q.2 = userGenreRatings uid movies ratings q.1 := by
    intro q hq
    rw [← grGet_genreRatingsOf uid movies ratings q.1]
    exact (grGet_of_mem (genreRatingsOf_keys_nodup uid movies ratings) hq).symm
  have hnonneg : ∀ q ∈ genreRatingsOf uid movies ratings, 0 ≤ avgList q.2 := by
    intro q hq
    refine avgList_nonneg fun x hx => ?_
    rw [hvals q hq] at hx
    rcases mem_userGenreRatings hx with ⟨p, hp, r, hr, _, _, hrx⟩
    exact hrx ▸ hval p hp r hr
  constructor
  · intro h
    rw [user_top_genre, genreRatingsOf_nil_of_not_has h]
    rfl
  · intro h
    have hne : genreRatingsOf uid movies ratings ≠ [] := genreRatingsOf_ne_nil_of_has h
    rcases bestFold_spec (genreRatingsOf uid movies ratings) ("", -1) with
      ⟨_, hall⟩ | ⟨l1, c, l2, hsplit, hcne, hres, _, hearly, hlate⟩
    · exfalso
      rcases List.exists_mem_of_ne_nil _ hne with ⟨e, he⟩
      have hene : ¬ e.2.isEmpty := by
        simpa using genreRatingsOf_snd_ne_nil uid movies ratings e he
      have h1 := hall e he hene
      have h2 := hnonneg e he
      have h3 : (0:ℚ) ≤ -1 := le_trans h2 h1
      norm_num at h3
    · obtain ⟨cg, cv⟩ := c
      have hutg : user_top_genre uid movies ratings = cg := by
        rw [user_top_genre, hres]
      have hcmem : (cg, cv) ∈ genreRatingsOf uid movies ratings := by
        rw [hsplit]
        exact List.mem_append_right _ (List.mem_cons_self _ _)
      have hmax : ∀ q ∈ genreRatingsOf uid movies ratings, avgList q.2 ≤ avgList cv := by
        intro q hq
        have hqne : ¬ q.2.isEmpty := by
          simpa using genreRatingsOf_snd_ne_nil uid movies ratings q hq
        have hq0 := hq
        rw [hsplit] at hq0
        rcases List.mem_append.1 hq0 with hq1 | hq2
        · exact le_of_lt (hearly q hq1 hqne)
        · rcases List.mem_cons.1 hq2 with rfl | hq3
          · exact le_refl _
          · exact hlate q hq3 hqne
      refine ⟨l1, cv, l2, ?_, ?_, ?_, ?_, hmax, hvals⟩
      · rw [hutg]
        exact hsplit
      · rw [hutg]
        exact hvals (cg, cv) hcmem
      · simpa using hcne
      · intro q hq1
        have hqmem : q ∈ genreRatingsOf uid movies ratings := by
          rw [hsplit]
          exact List.mem_append_left _ hq1
        have hqne : ¬ q.2.isEmpty := by
          simpa using genreRatingsOf_snd_ne_nil uid movies ratings q hqmem
        exact hearly q hq1 hqne

theorem C6_user_top_genre_witness :
    userGenreRatings (.str "u1") exMovies exRatings
      (user_top_genre (.str "u1") exMovies exRatings) ≠ [] := by
  obtain ⟨l1, vs, l2, hsplit, hvs, hne, hrest⟩ :=
    (C6_user_top_genre (.str "u1") exMovies exRatings (by decide)).2 (by decide)
  exact hvs ▸ hne

/-! ### Claim C9: user ids are compared through Python str() -/

/-- Whether one stored observation belongs to the queried user: the
program tests `str(item[0]) == str(user_id)`. -/
def selects (uid : UserId) (q : UserId × ℚ) : Bool := q.1.toStr == uid.toStr

/-- C9: `user_top_genre` and `recommend_movies` depend on the queried user
id only through its string form, so an integer id 1 and the string id "1"
are interchangeable; and two user ids select exactly the same observations
if and only if their string forms are equal. -/
theorem C9_user_id_via_str (u u2 : UserId) (movies : MoviesDict)
    (ratings : RatingsDict) :
    (u.toStr = u2.toStr →
      user_top_genre u movies ratings = user_top_genre u2 movies ratings ∧
      recommend_movies u movies ratings = recommend_movies u2 movies ratings) ∧
    ((∀ q : UserId × ℚ, selects u q = selects u2 q) ↔ u.toStr = u2.toStr) := by
  constructor
  · intro h
    have hstep : ratingStep u = ratingStep u2 := by
      funext mv mn acc item
      rw [ratingStep, ratingStep, contribOf, contribOf, h]
    have hg : genreRatingsOf u movies ratings = genreRatingsOf u2 movies ratings := by
      rw [genreRatingsOf, genreRatingsOf, hstep]
    have hu : user_top_genre u movies ratings = user_top_genre u2 movies ratings := by
      rw [user_top_genre, user_top_genre, hg]
    have hr : userRated u ratings = userRated u2 ratings := by
      funext m
      simp only [userRated, h]
    exact ⟨hu, by rw [recommend_movies, recommend_movies, hu, hr]⟩
  · constructor
    · intro hs
      have h1 : (u.toStr == u.toStr) = (u.toStr == u2.toStr) := hs (.str u.toStr, 0)
      have h2 : (u.toStr == u.toStr) = true := by simp
      rw [h2] at h1
      simpa using h1.symm
    · intro h q
      simp [selects, h]

theorem C9_user_id_via_str_witness :
    user_top_genre (.int 1) exMovies exRatings =
      user_top_genre (.str "1") exMovies exRatings ∧
    recommend_movies (.int 1) exMovies exRatings =
      recommend_movies (.str "1") exMovies exRatings :=
  (C9_user_id_via_str (.int 1) (.str "1") exMovies exRatings).1 (by decide)

/-! ### Claim C8: order independence of the stores -/

/-- The observational content of a rating store: the multiset of
(movie name, multiset of (user, rating)) entries. -/
def storeObs (r : RatingsDict) : Multiset (String × Multiset (UserId × ℚ)) :=
  ((r.map (fun p => (p.1, (p.2 : Multiset (UserId × ℚ))))) :
    List (String × Multiset (UserId × ℚ)))

/-- Catalog on which genres "a" and "b" have equal user means. -/
def cexMovies : MoviesDict := [("mA", (.int 1, "a")), ("mB", (.int 2, "b"))]

/-- Store insertion order mA then mB. -/
def cexR1 : RatingsDict := [("mA", [(.str "u1", 5)]), ("mB", [(.str "u1", 5)])]

/-- Same observations inserted in the opposite order. -/
def cexR2 : RatingsDict := [("mB", [(.str "u1", 5)]), ("mA", [(.str "u1", 5)])]

/-- C8: the claim states all five operations are insertion-order
independent.  False for `user_top_genre`: with two genres tied at mean 5,
the first genre encountered wins, and the encounter order follows store
insertion order, so the two equal-content stores give different answers. -/
theorem C8_tie_counterexample :
    storeObs cexR1 = storeObs cexR2 ∧
    user_top_genre (.str "u1") cexMovies cexR1 ≠
      user_top_genre (.str "u1") cexMovies cexR2 := by
  constructor
  · simp only [storeObs, cexR1, cexR2, List.map_cons, List.map_nil]
    rw [Multiset.coe_eq_coe]
    exact List.Perm.swap _ _ _
  · have ha : user_top_genre (.str "u1") cexMovies cexR1 = "a" := by
      simp [user_top_genre, genreRatingsOf, ratingStep, contribOf, bestStep, addAt,
        avgList, catGet, List.find?, UserId.toStr, cexMovies, cexR1]
      all_goals norm_num
    have hb : user_top_genre (.str "u1") cexMovies cexR2 = "b" := by
      simp [user_top_genre, genreRatingsOf, ratingStep, contribOf, bestStep, addAt,
        avgList, catGet, List.find?, UserId.toStr, cexMovies, cexR2]
      all_goals norm_num
    rw [ha, hb]
    simp

theorem movieAvg_perm {v1 v2 : List (UserId × ℚ)} (h : v1.Perm v2) :
    movieAvg v1 = movieAvg v2 := by
  have hE : v1.isEmpty = v2.isEmpty := by
    rw [Bool.eq_iff_iff, List.isEmpty_iff, List.isEmpty_iff]
    constructor
    · intro h2
      subst h2
      exact h.symm.eq_nil
    · intro h2
      subst h2
      exact h.eq_nil
  have hA : avgList (v1.map Prod.snd) = avgList (v2.map Prod.snd) := by
    rw [avgList, avgList, (h.map Prod.snd).sum_eq, (h.map Prod.snd).length_eq]
  rw [movieAvg, movieAvg, hE, hA]

theorem find?_key_eq_of_perm {α : Type} {l1 l2 : List (String × α)} (hp : l1.Perm l2)
    (hnd : (l1.map Prod.fst).Nodup) (m : String) :
    l1.find? (fun p => p.1 == m) = l2.find? (fun p => p.1 == m) := by
  cases hf1 : l1.find? (fun p => p.1 == m) with
  | none =>
    cases hf2 : l2.find? (fun p => p.1 == m) with
    | none => rfl
    | some b =>
      exfalso
      have hb : b ∈ l1 := hp.mem_iff.2 (List.mem_of_find?_eq_some hf2)
      have hsome2 := List.find?_some hf2
      exact List.find?_eq_none.1 hf1 b hb hsome2
  | some a =>
    cases hf2 : l2.find? (fun p => p.1 == m) with
    | none =>
      exfalso
      have ha : a ∈ l2 := hp.mem_iff.1 (List.mem_of_find?_eq_some hf1)
      have hsome1 := List.find?_some hf1
      exact List.find?_eq_none.1 hf2 a ha hsome1
    | some b =>
      have ha : a ∈ l1 := List.mem_of_find?_eq_some hf1
      have hb : b ∈ l1 := hp.mem_iff.2 (List.mem_of_find?_eq_some hf2)
      have hka : a.1 = m := by simpa using List.find?_some hf1
      have hkb : b.1 = m := by simpa using List.find?_some hf2
      have : a = b := List.inj_on_of_nodup_map hnd ha hb (hka.trans hkb.symm)
      rw [this]

theorem movieAvg_dictGet_eq {r1 r2 : RatingsDict}
    (hperm : (r1.map (fun p => (p.1, (p.2 : Multiset (UserId × ℚ))))).Perm
      (r2.map (fun p => (p.1, (p.2 : Multiset (UserId × ℚ))))))
    (h1 : (r1.map Prod.fst).Nodup) (m : String) :
    movieAvg (dictGet r1 m) = movieAvg (dictGet r2 m) := by
  have hnd : ((r1.map (fun p => (p.1, (p.2 : Multiset (UserId × ℚ))))).map
      Prod.fst).Nodup := by
    rw [List.map_map]
    exact h1
  have hfind := find?_key_eq_of_perm hperm hnd m
  rw [List.find?_map, List.find?_map] at hfind
  have hf1 : (fun (p : String × Multiset (UserId × ℚ)) => p.1 == m) ∘
      (fun (p : String × List (UserId × ℚ)) => (p.1, (p.2 : Multiset (UserId × ℚ)))) =
      fun p => p.1 == m := rfl
  rw [hf1] at hfind
  rw [dictGet, dictGet]
  cases hc1 : r1.find? (fun p => p.1 == m) with
  | none =>
    cases hc2 : r2.find? (fun p => p.1 == m) with
    | none => rfl
    | some b =>
      rw [hc1, hc2] at hfind
      simp at hfind
  | some a =>
    cases hc2 : r2.find? (fun p => p.1 == m) with
    | none =>
      rw [hc1, hc2] at hfind
      simp at hfind
    | some b =>
      rw [hc1, hc2] at hfind
      simp only [Option.map_some'] at hfind
      have hv : (a.2 : Multiset (UserId × ℚ)) = (b.2 : Multiset (UserId × ℚ)) :=
        congrArg Prod.snd (Option.some.inj hfind)
      exact movieAvg_perm (Multiset.coe_eq_coe.1 hv)

/-- The per-entry average seen through the observational view. -/
def entryAvg (p : String × Multiset (UserId × ℚ)) : Option (String × ℚ) :=
  if p.2 = 0 then none
  else some (p.1, (p.2.map Prod.snd).sum / (Multiset.card p.2 : ℚ))

theorem averagesList_factor (r : RatingsDict) :
    averagesList r =
      (r.map (fun p => (p.1, (p.2 : Multiset (UserId × ℚ))))).filterMap entryAvg := by
  induction r with
  | nil => rfl
  | cons p t ih =>
    rw [averagesList, List.filterMap_cons, List.map_cons, List.filterMap_cons]
    rw [averagesList] at ih
    by_cases hE : p.2 = []
    · have h1 : movieAvg p.2 = none := by rw [movieAvg, if_pos (by simp [hE])]
      have h2 : entryAvg (p.1, (p.2 : Multiset (UserId × ℚ))) = none := by
        rw [entryAvg, if_pos (by simpa [Multiset.coe_eq_zero] using hE)]
      rw [h1, h2]
      simpa using ih
    · have h1 : movieAvg p.2 = some (avgList (p.2.map Prod.snd)) := by
        rw [movieAvg, if_neg (by simpa using hE)]
      have h2 : entryAvg (p.1, (p.2 : Multiset (UserId × ℚ))) =
          some (p.1, avgList (p.2.map Prod.snd)) := by
        rw [entryAvg, if_neg (by simpa [Multiset.coe_eq_zero] using hE)]
        rw [avgList, Multiset.map_coe, Multiset.sum_coe, Multiset.coe_card,
          List.length_map]
      rw [h1, h2]
      simpa using ih

/-- C8 (amended): `top_movies`, `top_movies_in_genre` and `top_genres` are
insertion-order independent: two stores with the same multiset of movie
entries, each with the same multiset of (user, rating) observations,
yield identical results (dict keys are unique).  The counterexample shows
`user_top_genre` (and hence `recommend_movies`) can differ between such
stores when two genre means tie, because the tie goes to the first genre
encountered in store order. -/
theorem C8_order_independent (n : Int) (g : String) (movies : MoviesDict)
    {r1 r2 : RatingsDict} (h : storeObs r1 = storeObs r2)
    (h1 : (r1.map Prod.fst).Nodup) :
    top_movies n r1 = top_movies n r2 ∧
    top_movies_in_genre n g movies r1 = top_movies_in_genre n g movies r2 ∧
    top_genres n movies r1 = top_genres n movies r2 := by
  have hperm : (r1.map (fun p => (p.1, (p.2 : Multiset (UserId × ℚ))))).Perm
      (r2.map (fun p => (p.1, (p.2 : Multiset (UserId × ℚ))))) := by
    rw [← Multiset.coe_eq_coe]
    exact h
  have hAvg : ∀ m, movieAvg (dictGet r1 m) = movieAvg (dictGet r2 m) :=
    movieAvg_dictGet_eq hperm h1
  refine ⟨?_, ?_, ?_⟩
  · have hperm2 : (averagesList r1).Perm (averagesList r2) := by
      rw [averagesList_factor, averagesList_factor]
      exact hperm.filterMap entryAvg
    rw [top_movies, top_movies, rankedMovies, rankedMovies, rankSort_eq_of_perm hperm2]
  · have hlist : genreMoviesList g movies r1 = genreMoviesList g movies r2 := by
      rw [genreMoviesList, genreMoviesList]
      congr 1
      funext p
      rw [hAvg p.1]
    rw [top_movies_in_genre, top_movies_in_genre, rankedGenreMovies, rankedGenreMovies,
      hlist]
  · have hagg : genreAgg movies r1 = genreAgg movies r2 := by
      rw [genreAgg, genreAgg]
      have hstep : (fun (acc : List (String × ℚ × ℕ)) (p : String × (MovieId × String)) =>
          match movieAvg (dictGet r1 p.1) with
          | none => acc
          | some a => bump acc p.2.2 a) =
          (fun acc p =>
          match movieAvg (dictGet r2 p.1) with
          | none => acc
          | some a => bump acc p.2.2 a) := by
        funext acc p
        rw [hAvg p.1]
      rw [hstep]
    rw [top_genres, top_genres, rankedGenres, rankedGenres, genreMeans, genreMeans, hagg]

theorem C8_order_independent_witness :
    top_movies 2 cexR1 = top_movies 2 cexR2 ∧
    top_movies_in_genre 2 "a" cexMovies cexR1 = top_movies_in_genre 2 "a" cexMovies cexR2 ∧
    top_genres 2 cexMovies cexR1 = top_genres 2 cexMovies cexR2 :=
  C8_order_independent 2 "a" cexMovies
    (by
      simp only [storeObs, cexR1, cexR2, List.map_cons, List.map_nil]
      rw [Multiset.coe_eq_coe]
      exact List.Perm.swap _ _ _)
    (by decide)
